import Mathlib

/-!
Verification development for the `organizers` repository: a shallow
embedding in Lean 4 of the scanning, counting, aggregation, formatting and
reporting logic of `shared_utils.py`, `comanga.py`, `pageCounter.py`,
`length.py` and `seriesLength.py`, together with theorems settling the
specified properties.

Modelling conventions:
* A file on disk is abstracted as a `PyFile` record carrying the
  observable attributes the scripts consult (`name`, `suffix`, `size`,
  existence, file-ness, readability) plus the black-box outcome of the
  format-specific counter collaborator (`counter : Except String Nat`,
  error = the exception the counter would raise).
* `comanga.py`, `pageCounter.py` and `seriesLength.py` never bind the
  module-level name `logging`, so every `logging.*` call in those files
  raises `NameError` at the point of use (`shared_utils.py` and
  `length.py` do import it, so their own logging calls succeed, and
  `ProgressReporter` methods execute in `shared_utils`'s namespace).
  Functions of the three broken modules are therefore embedded with an
  explicit `loggingBound : Bool` parameter: each of their `logging.*`
  statements is a `loggingCall loggingBound` that raises
  `NameError: logging` when the parameter is `false`.  The program as
  written runs at `loggingBound = moduleBindsLogging <module>_globals`
  (which evaluates to `false` for these modules); `loggingBound = true`
  is the evidently intended binding (one `import logging` away), used to
  state what the recording logic does once reachable.
* Python's builtin `sorted` is modelled by Mathlib's stable
  `List.insertionSort`.
* Float arithmetic in `format_file_size` is modelled over `ℚ`; for the
  integer inputs the scripts pass, each division by `1024.0` is exact in
  IEEE doubles (the mantissa is preserved), and `f"{x:.1f}"` is modelled
  by explicit round-half-to-even on exact rationals, matching CPython's
  rendering including at ties such as `1280/1024 = 1.25`.
-/

namespace Organizers

/-- Classification of the pre-check branches of
`shared_utils.safe_file_operation` (the branch order of the source:
does-not-exist, not-a-file, empty, unreadable). -/
inductive PrecheckFail where
  | notFound
  | notAFile
  | empty
  | permissionDenied
deriving DecidableEq, Repr

instance : DecidableEq (Except String Nat) := fun x y =>
  match x, y with
  | .ok a, .ok b =>
    if h : a = b then .isTrue (by rw [h]) else .isFalse (by simp [h])
  | .ok _, .error _ => .isFalse (by simp)
  | .error _, .ok _ => .isFalse (by simp)
  | .error a, .error b =>
    if h : a = b then .isTrue (by rw [h]) else .isFalse (by simp [h])

/-- Abstraction of a candidate file: the attributes the scripts observe,
plus the outcome of invoking its format counter (`Except.error e` models
the counter raising exception message `e`). -/
structure PyFile where
  name : String
  suffix : String
  size : Nat
  exists_ : Bool
  isFile : Bool
  readOk : Bool
  counter : Except String Nat
deriving DecidableEq, Repr

/-- `shared_utils.safe_file_operation`: exists? is-file? non-empty?
readable? — returns `true` only when every check passes.
(`shared_utils` imports `logging`, so its internal warning/error logging
works and is side-effect only.) -/
def safe_file_operation (f : PyFile) : Bool :=
  if f.exists_ = false then false
  else if f.isFile = false then false
  else if f.size = 0 then false
  else f.readOk

/-- The classified reason logged by `safe_file_operation` when it returns
`False` (the warning/error messages of the source, branch for branch):
`none` means all checks passed. -/
def safe_file_check (f : PyFile) : Option PrecheckFail :=
  if f.exists_ = false then some .notFound
  else if f.isFile = false then some .notAFile
  else if f.size = 0 then some .empty
  else if f.readOk = false then some .permissionDenied
  else none

theorem safe_file_operation_eq_check (f : PyFile) :
    safe_file_operation f = (safe_file_check f).isNone := by
  unfold safe_file_operation safe_file_check
  cases hex : f.exists_ <;> cases hif : f.isFile <;> cases hro : f.readOk <;>
    by_cases hsz : f.size = 0 <;> simp [hex, hif, hro, hsz]

/-- ASCII lower-casing of one character, as Python's `str.lower()` acts
on the ASCII file suffixes these scripts compare. -/
def lowerChar (c : Char) : Char :=
  if 'A' ≤ c ∧ c ≤ 'Z' then Char.ofNat (c.toNat + 32) else c

/-- Model of Python's `str.lower()` (`Path.suffix.lower()` in the
scripts); the suffixes involved are ASCII. -/
def pyLower (s : String) : String :=
  String.mk (s.data.map lowerChar)

/-- A Python exception escaping a modelled function. -/
inductive PyExc where
  | nameError : String → PyExc
deriving DecidableEq, Repr

/-- One `logging.*` statement of a module whose binding status for the
name `logging` is `b`: it succeeds when the module binds `logging` and
raises `NameError: logging` when it does not. -/
def loggingCall (b : Bool) : Except PyExc Unit :=
  if b then .ok () else .error (.nameError "logging")

/-! ## pageCounter.py -/

/-- The extensions registered in `pageCounter.count_file_pages`'s
`page_counters` dictionary. -/
def page_counters : List String := [".pdf", ".epub", ".docx"]

/-- `pageCounter.count_file_pages`: lower-case the suffix, look it up in
the registry; a registered extension dispatches to its counter
(black-boxed as `f.counter`), an unregistered one raises
`Unsupported file format`.  The function body references no module
global of `pageCounter.py` other than the counters, so it runs without
`NameError`. -/
def count_file_pages (f : PyFile) : Except String Nat :=
  let extension := pyLower f.suffix
  if extension ∈ page_counters then f.counter
  else .error ("Unsupported file format: " ++ extension)

/-- One iteration of the loop in `pageCounter.count_pages_in_directory`
(lines 132-150), statement for statement, under `logging`-binding status
`lb`.  Returns the pair (appended `files_with_pages` entry, appended
`error_files` entry) or the exception escaping the iteration:
* pre-check failure: `error_files.append` (line 136) and
  `progress.update()` (executed in `shared_utils`'s namespace) run
  before any `pageCounter` logging, so this path records and continues
  even with `logging` unbound;
* successful count: the append (line 142) precedes `logging.info`
  (line 143); when `logging` is unbound that raises, the `except`
  handler's own `logging.error` (line 147) raises again, and the
  `NameError` escapes before `error_files.append` (line 148);
* counter exception: the handler reaches `logging.error` (line 147)
  first — unbound, it raises and escapes; bound, line 148 records. -/
def processFile (lb : Bool) (f : PyFile) :
    Except PyExc (Option (String × Nat) × Option (String × String)) :=
  if safe_file_operation f = false then
    .ok (none, some (f.name, "File access error"))
  else
    match count_file_pages f with
    | .ok n =>
      match loggingCall lb with
      | .ok _ => .ok (some (f.name, n), none)
      | .error e => .error e
    | .error msg =>
      match loggingCall lb with
      | .ok _ => .ok (none, some (f.name, msg))
      | .error e => .error e

/-- The loop of `pageCounter.count_pages_in_directory`, carrying the
`files_with_pages` and `error_files` accumulators; an exception escaping
an iteration aborts the whole loop. -/
def scanLoop (lb : Bool) :
    List PyFile → List (String × Nat) → List (String × String) →
      Except PyExc (List (String × Nat) × List (String × String))
  | [], fwp, ef => .ok (fwp, ef)
  | f :: rest, fwp, ef =>
    match processFile lb f with
    | .ok (s, e) => scanLoop lb rest (fwp ++ s.toList) (ef ++ e.toList)
    | .error exc => .error exc

/-- `pageCounter.count_pages_in_directory` on an already-discovered
candidate list, under `logging`-binding status `lb`: the empty case logs
`No supported files` (line 122) and returns `[]`; otherwise line 130's
`logging.info(f"Found ...")` runs before the loop, and after the loop a
non-empty `error_files` triggers the `logging.warning` summary
(line 156).  The source returns `files_with_pages`; the second component
is the loop's local `error_files` record. -/
def count_pages_in_directory (lb : Bool) (files : List PyFile) :
    Except PyExc (List (String × Nat) × List (String × String)) :=
  if files.length = 0 then
    match loggingCall lb with
    | .ok _ => .ok ([], [])
    | .error e => .error e
  else
    match loggingCall lb with
    | .error e => .error e
    | .ok _ =>
      match scanLoop lb files [] [] with
      | .error e => .error e
      | .ok (fwp, ef) =>
        if ef.length = 0 then .ok (fwp, ef)
        else
          match loggingCall lb with
          | .ok _ => .ok (fwp, ef)
          | .error e => .error e

/-- The success outcome a file contributes under the intended `logging`
binding, if any. -/
def successOutcome (f : PyFile) : Option (String × Nat) :=
  match processFile true f with
  | .ok (s, _) => s
  | .error _ => none

/-- The failure record a file contributes under the intended `logging`
binding, if any. -/
def failureOutcome (f : PyFile) : Option (String × String) :=
  match processFile true f with
  | .ok (_, e) => e
  | .error _ => none

theorem processFile_true_ok (f : PyFile) :
    processFile true f = .ok (successOutcome f, failureOutcome f) := by
  by_cases h : safe_file_operation f = false
  · have hp : processFile true f = .ok (none, some (f.name, "File access error")) := by
      unfold processFile
      simp [h]
    rw [hp]
    simp [successOutcome, failureOutcome, hp]
  · cases hc : count_file_pages f with
    | ok n =>
      have hp : processFile true f = .ok (some (f.name, n), none) := by
        unfold processFile
        simp [h, hc, loggingCall]
      rw [hp]
      simp [successOutcome, failureOutcome, hp]
    | error m =>
      have hp : processFile true f = .ok (none, some (f.name, m)) := by
        unfold processFile
        simp [h, hc, loggingCall]
      rw [hp]
      simp [successOutcome, failureOutcome, hp]

theorem outcome_exclusive (f : PyFile) :
    (∃ r, successOutcome f = some r ∧ failureOutcome f = none) ∨
    (∃ e, successOutcome f = none ∧ failureOutcome f = some e) := by
  by_cases h : safe_file_operation f = false
  · exact .inr ⟨(f.name, "File access error"),
      by simp [successOutcome, processFile, h],
      by simp [failureOutcome, processFile, h]⟩
  · cases hc : count_file_pages f with
    | ok n =>
      exact .inl ⟨(f.name, n),
        by simp [successOutcome, processFile, loggingCall, h, hc],
        by simp [failureOutcome, processFile, loggingCall, h, hc]⟩
    | error m =>
      exact .inr ⟨(f.name, m),
        by simp [successOutcome, processFile, loggingCall, h, hc],
        by simp [failureOutcome, processFile, loggingCall, h, hc]⟩

theorem scanLoop_true_eq (files : List PyFile) :
    ∀ fwp ef, scanLoop true files fwp ef =
      .ok (fwp ++ files.filterMap successOutcome,
           ef ++ files.filterMap failureOutcome) := by
  induction files with
  | nil => intro fwp ef; simp [scanLoop]
  | cons f rest ih =>
    intro fwp ef
    have hpf := processFile_true_ok f
    rcases outcome_exclusive f with ⟨r, hs, hf⟩ | ⟨e, hs, hf⟩ <;>
      rw [hs, hf] at hpf <;>
      simp [scanLoop, hpf, ih, List.filterMap_cons, hs, hf]

theorem count_pages_in_directory_true_eq (files : List PyFile) :
    count_pages_in_directory true files =
      .ok (files.filterMap successOutcome, files.filterMap failureOutcome) := by
  unfold count_pages_in_directory
  by_cases h : files.length = 0
  · have hnil : files = [] := List.length_eq_zero.mp h
    subst hnil
    simp [loggingCall]
  · rw [if_neg h]
    have hloop := scanLoop_true_eq files [] []
    simp only [List.nil_append] at hloop
    simp only [loggingCall, if_pos, hloop]
    split <;> rfl

theorem counts_partition (files : List PyFile) :
    (files.filterMap successOutcome).length + (files.filterMap failureOutcome).length
      = files.length := by
  induction files with
  | nil => simp
  | cons f rest ih =>
    rcases outcome_exclusive f with ⟨r, hs, hf⟩ | ⟨e, hs, hf⟩ <;>
      simp [hs, hf] <;> omega

theorem count_pages_in_directory_unbound (files : List PyFile) :
    count_pages_in_directory false files = .error (.nameError "logging") := by
  cases files with
  | nil => rfl
  | cons f rest => rfl

/-! ## comanga.py -/

/-- The extensions registered in `comanga.get_page_counter`'s `counters`
dictionary. -/
def comanga_counters : List String := [".cbz", ".cbr", ".epub", ".pdf"]

/-- `comanga.count_pages_in_file`: resolve the lower-cased suffix through
`get_page_counter`; a registered extension dispatches to its counter
(black-boxed as `f.counter`), an unregistered one falls through to
`return 0`.  The function references no unbound global, so it runs
without `NameError`. -/
def count_pages_in_file (f : PyFile) : Except String Nat :=
  if pyLower f.suffix ∈ comanga_counters then f.counter
  else .ok 0

/-- The per-file outcome of one iteration of the subdirectory loop in
`comanga.count_pages_in_directory` under the intended `logging`
binding. -/
inductive ComangaOutcome where
  | success : Nat → ComangaOutcome
  | skipped
  | errored : String → ComangaOutcome
deriving DecidableEq, Repr

/-- One iteration of the subdirectory loop of
`comanga.count_pages_in_directory` (lines 132-143), statement for
statement, under `logging`-binding status `lb`:
* accessible file: `count_pages_in_file` runs and its result is added —
  this path contains no `comanga` logging call, so it succeeds even with
  `logging` unbound;
* inaccessible file: `logging.warning` (line 139) raises when unbound,
  the handler's `logging.error` (line 141) raises again and escapes;
* raising counter: the handler's `logging.error` (line 141) raises when
  unbound and escapes; bound, the error is logged and the loop
  continues. -/
def comanga_process_file (lb : Bool) (f : PyFile) :
    Except PyExc ComangaOutcome :=
  if safe_file_operation f then
    match count_pages_in_file f with
    | .ok n => .ok (.success n)
    | .error e =>
      match loggingCall lb with
      | .ok _ => .ok (.errored e)
      | .error exc => .error exc
  else
    match loggingCall lb with
    | .ok _ => .ok .skipped
    | .error exc => .error exc

/-- The per-file outcome under the intended `logging` binding. -/
def comanga_outcome (f : PyFile) : ComangaOutcome :=
  if safe_file_operation f then
    match count_pages_in_file f with
    | .ok n => .success n
    | .error e => .errored e
  else .skipped

theorem comanga_process_file_true (f : PyFile) :
    comanga_process_file true f = .ok (comanga_outcome f) := by
  unfold comanga_process_file comanga_outcome loggingCall
  by_cases h : safe_file_operation f <;>
    cases hc : count_pages_in_file f <;> simp [h, hc]

/-- The subdirectory loop of `comanga.count_pages_in_directory` under
`logging`-binding status `lb`, returning
`(total_pages, file_count, recorded_failures)` where the failure count
tallies the logged skip-warnings and caught-exception errors; an
escaping exception aborts the loop. -/
def comanga_subdir_loop (lb : Bool) : List PyFile → Except PyExc (Nat × Nat × Nat)
  | [] => .ok (0, 0, 0)
  | f :: rest =>
    match comanga_process_file lb f with
    | .error e => .error e
    | .ok o =>
      match comanga_subdir_loop lb rest with
      | .error e => .error e
      | .ok acc =>
        .ok (match o with
          | .success n => (acc.1 + n, acc.2.1 + 1, acc.2.2)
          | .skipped => (acc.1, acc.2.1, acc.2.2 + 1)
          | .errored _ => (acc.1, acc.2.1, acc.2.2 + 1))

/-- The totals the subdirectory loop accumulates under the intended
`logging` binding. -/
def comanga_subdir_totals : List PyFile → Nat × Nat × Nat
  | [] => (0, 0, 0)
  | f :: rest =>
    let acc := comanga_subdir_totals rest
    match comanga_outcome f with
    | .success n => (acc.1 + n, acc.2.1 + 1, acc.2.2)
    | .skipped => (acc.1, acc.2.1, acc.2.2 + 1)
    | .errored _ => (acc.1, acc.2.1, acc.2.2 + 1)

theorem comanga_subdir_loop_true (files : List PyFile) :
    comanga_subdir_loop true files = .ok (comanga_subdir_totals files) := by
  induction files with
  | nil => rfl
  | cons f rest ih =>
    simp only [comanga_subdir_loop, comanga_process_file_true f, ih,
      comanga_subdir_totals]

theorem comanga_totals_partition (files : List PyFile) :
    (comanga_subdir_totals files).2.1 + (comanga_subdir_totals files).2.2
      = files.length := by
  induction files with
  | nil => simp [comanga_subdir_totals]
  | cons f rest ih =>
    unfold comanga_subdir_totals
    cases h : comanga_outcome f <;> simp [h] <;> omega

/-! ## Result ranking (Python `sorted(..., key=lambda x: x[1])`) -/

/-- The comparison induced by `key=lambda x: x[1]` in
`sorted(results.items(), key=lambda x: x[1])` (ascending by count). -/
def byCount : (String × Nat) → (String × Nat) → Prop := fun a b => a.2 ≤ b.2

instance : DecidableRel byCount := fun a b => Nat.decLe a.2 b.2

instance : IsTotal (String × Nat) byCount := ⟨fun a b => Nat.le_total a.2 b.2⟩

instance : IsTrans (String × Nat) byCount := ⟨fun _ _ _ h1 h2 => le_trans h1 h2⟩

/-- Python's builtin `sorted` with `key=lambda x: x[1]`: a stable sort
ascending by the count component, modelled by Mathlib's stable
`List.insertionSort`. -/
def pySorted (l : List (String × Nat)) : List (String × Nat) :=
  List.insertionSort byCount l

theorem filter_orderedInsert (v : Nat) (a : String × Nat) :
    ∀ l : List (String × Nat),
      (List.orderedInsert byCount a l).filter (fun x => x.2 == v)
        = (a :: l).filter (fun x => x.2 == v)
  | [] => rfl
  | b :: l => by
    by_cases hab : byCount a b
    · rw [List.orderedInsert_of_le _ _ hab]
    · have hlt : b.2 < a.2 := by
        simpa [byCount, Nat.not_le] using hab
      have hrec := filter_orderedInsert v a l
      simp only [List.orderedInsert, if_neg hab]
      by_cases hb : b.2 = v
      · have ha : ¬ a.2 = v := by omega
        simp [List.filter_cons, hb, ha, hrec]
      · simp [List.filter_cons, hb, hrec]

theorem filter_pySorted (v : Nat) :
    ∀ l : List (String × Nat),
      (pySorted l).filter (fun x => x.2 == v) = l.filter (fun x => x.2 == v)
  | [] => rfl
  | a :: l => by
    have h1 := filter_orderedInsert v a (List.insertionSort byCount l)
    have h2 := filter_pySorted v l
    simp only [pySorted, List.insertionSort] at *
    rw [h1]
    by_cases ha : a.2 = v <;> simp [List.filter_cons, ha, h2]

/-- C9: The report-ranking step `sorted(results.items(), key=lambda x: x[1])`
sorts the aggregated groups ascending by total count, the output is a
permutation of the input, and the sort is stable: for every total value
`v`, the subsequence of groups whose total is `v` is exactly the input's
subsequence with total `v` (discovery/insertion order preserved, no
secondary sort key). -/
theorem ranking_ascending_and_stable (l : List (String × Nat)) :
    List.Sorted byCount (pySorted l)
    ∧ (pySorted l).Perm l
    ∧ ∀ v : Nat, (pySorted l).filter (fun x => x.2 == v) = l.filter (fun x => x.2 == v) :=
  ⟨List.sorted_insertionSort byCount l, List.perm_insertionSort byCount l,
   fun v => filter_pySorted v l⟩

/-! ## Duration formatting (C7)

`shared_utils.format_duration` (identical in `length.py`): the claim
restricts attention to non-negative whole-second inputs, on which the
source's `int(...)` conversions are exact, so the model is over `ℕ`. -/

/-- Python's `f"{n:02d}"`: decimal rendering zero-padded to width 2. -/
def pad2 (n : Nat) : String :=
  if n < 10 then "0" ++ Nat.repr n else Nat.repr n

/-- The three fields `hours`, `minutes`, `secs` computed by
`format_duration`. -/
def duration_fields (seconds : Nat) : Nat × Nat × Nat :=
  (seconds / 3600, (seconds % 3600) / 60, seconds % 60)

/-- `shared_utils.format_duration` on whole seconds:
`f"{hours:02d}:{minutes:02d}:{secs:02d}"`. -/
def format_duration (seconds : Nat) : String :=
  let hours := seconds / 3600
  let minutes := (seconds % 3600) / 60
  let secs := seconds % 60
  pad2 hours ++ ":" ++ pad2 minutes ++ ":" ++ pad2 secs

/-- The inverse reading of an `H:MM:SS` field triple back to seconds. -/
def unformat_duration (t : Nat × Nat × Nat) : Nat :=
  3600 * t.1 + 60 * t.2.1 + t.2.2

theorem toDigitsCore_length_lower (b : Nat) :
    ∀ (fuel n : Nat) (ds : List Char),
      1 ≤ fuel → ds.length + 1 ≤ (Nat.toDigitsCore b fuel n ds).length
  | 0, _, _ => by intro h; omega
  | fuel + 1, n, ds => by
    intro _
    simp only [Nat.toDigitsCore]
    by_cases h : n / b = 0
    · simp [h]
    · rw [if_neg h]
      cases fuel with
      | zero => simp [Nat.toDigitsCore]
      | succ f =>
        have := toDigitsCore_length_lower b (f + 1) (n / b)
          (Nat.digitChar (n % b) :: ds) (by omega)
        simp only [List.length_cons] at this
        omega

theorem repr_length_pos (n : Nat) : 1 ≤ (Nat.repr n).length := by
  have h : Nat.repr n = (Nat.toDigitsCore 10 (n + 1) n []).asString := rfl
  rw [h]
  have := toDigitsCore_length_lower 10 (n + 1) n [] (by omega)
  simpa [String.length, List.asString] using this

theorem repr_length_two (n : Nat) (h10 : 10 ≤ n) : 2 ≤ (Nat.repr n).length := by
  have h : Nat.repr n = (Nat.toDigitsCore 10 (n + 1) n []).asString := rfl
  rw [h]
  simp only [Nat.toDigitsCore]
  have hdiv : ¬ n / 10 = 0 := by
    have : 1 ≤ n / 10 := (Nat.le_div_iff_mul_le (by omega)).mpr (by omega)
    omega
  simp only [hdiv, if_neg hdiv]
  have := toDigitsCore_length_lower 10 n (n / 10)
    [Nat.digitChar (n % 10)] (by omega)
  simpa [String.length, List.asString] using this

theorem pad2_length (n : Nat) : 2 ≤ (pad2 n).length := by
  unfold pad2
  by_cases h : n < 10
  · rw [if_pos h, String.length_append]
    have := repr_length_pos n
    have h0 : ("0" : String).length = 1 := rfl
    omega
  · rw [if_neg h]
    exact repr_length_two n (by omega)

/-- C7: For every non-negative whole number of seconds `s`,
`format_duration s` is the three fields `H:MM:SS` each rendered
zero-padded to at least two digits, the minutes and seconds fields are
below 60 (the hour field is unbounded), and the inverse reading
`3600*H + 60*M + S` recovers `s` exactly — formatting is invertible on
whole-second inputs. -/
theorem format_duration_round_trip (s : Nat) :
    format_duration s
      = pad2 (duration_fields s).1 ++ ":" ++ pad2 (duration_fields s).2.1
        ++ ":" ++ pad2 (duration_fields s).2.2
    ∧ (duration_fields s).2.1 < 60
    ∧ (duration_fields s).2.2 < 60
    ∧ 2 ≤ (pad2 (duration_fields s).1).length
    ∧ 2 ≤ (pad2 (duration_fields s).2.1).length
    ∧ 2 ≤ (pad2 (duration_fields s).2.2).length
    ∧ unformat_duration (duration_fields s) = s := by
  refine ⟨rfl, ?_, ?_, pad2_length _, pad2_length _, pad2_length _, ?_⟩
  · show (s % 3600) / 60 < 60
    omega
  · show s % 60 < 60
    omega
  · show 3600 * (s / 3600) + 60 * ((s % 3600) / 60) + s % 60 = s
    omega

/-! ## Persisting the report (C10)

`shared_utils.save_results_to_file` wraps the whole write in
`try/except Exception`, logging (in `shared_utils`'s namespace, where
`logging` is bound) and returning `False` on any error.  The file-system
write is the external effect, modelled as a function from the rendered
lines to `Except String Unit` (`.error e` = the exception raised by the
failed write, for any reason).  The callers pass
`results_text : List[str]`, so the list-of-plain-strings rendering
branch of the source is the one modelled; the results value is read,
never mutated — the rendering embeds its items verbatim.

`seriesLength.save_durations_to_file` is a caller that genuinely runs:
its body references only `format_duration`, `Path` and
`save_results_to_file`, all bound in `seriesLength.py`, so it contains
no unbound-`logging` reference. -/

/-- The lines `save_results_to_file` writes for a list of plain strings:
title, an `=` underline of the title's length, a blank line, then one
line per item (each item verbatim). -/
def render_results_lines (title : String) (results : List String) : List String :=
  [title, String.mk (List.replicate title.length '='), ""] ++ results

/-- `shared_utils.save_results_to_file`: attempt the write; any raised
error is caught and converted to the return value `False`, a completed
write returns `True`.  Nothing propagates to the caller. -/
def save_results_to_file (write : List String → Except String Unit)
    (results : List String) (title : String) : Bool :=
  match write (render_results_lines title results) with
  | .ok _ => true
  | .error _ => false

/-- The `results_text` lines `seriesLength.save_durations_to_file`
builds from its durations mapping (whole-second durations). -/
def seriesLength_results_text (durations : List (String × Nat)) : List String :=
  durations.map (fun p => p.1 ++ ": " ++ format_duration p.2)

/-- `seriesLength.save_durations_to_file`: render the durations and hand
them to `save_results_to_file`. -/
def save_durations_to_file (write : List String → Except String Unit)
    (durations : List (String × Nat)) : Bool :=
  save_results_to_file write (seriesLength_results_text durations)
    "TV SERIES DURATION ANALYSIS"

/-- C10: For every results value, title and write effect: if the write
fails for any reason, `save_results_to_file` catches the error and
returns `False` (and returns `True` exactly when the write completes) —
by construction nothing escalates past it, and the results passed in are
only read (their items are embedded verbatim in the rendered lines); the
runnable caller `seriesLength.save_durations_to_file` therefore also
returns `False` instead of raising when the write of its already-computed
durations fails, leaving those in-memory results intact. -/
theorem persist_failure_not_fatal
    (write : List String → Except String Unit)
    (results : List String) (title : String)
    (durations : List (String × Nat)) (e : String) :
    (write (render_results_lines title results) = .error e →
      save_results_to_file write results title = false)
    ∧ (write (render_results_lines title results) = .ok () →
      save_results_to_file write results title = true)
    ∧ (write (render_results_lines "TV SERIES DURATION ANALYSIS"
          (seriesLength_results_text durations)) = .error e →
        save_durations_to_file write durations = false) := by
  refine ⟨?_, ?_, ?_⟩
  · intro hw
    unfold save_results_to_file
    rw [hw]
  · intro hw
    unfold save_results_to_file
    rw [hw]
  · intro hw
    unfold save_durations_to_file save_results_to_file
    rw [hw]

/-- Witness for `persist_failure_not_fatal` with a write that always
raises `Permission denied`, on concrete inputs. -/
theorem persist_failure_not_fatal_witness :
    save_results_to_file (fun _ => Except.error "Permission denied")
        ["a: 1 pages"] "RESULTS" = false
    ∧ save_durations_to_file (fun _ => Except.error "Permission denied")
        [("S1", 3725)] = false :=
  ⟨(persist_failure_not_fatal (fun _ => Except.error "Permission denied")
      ["a: 1 pages"] "RESULTS" [("S1", 3725)] "Permission denied").1 rfl,
   (persist_failure_not_fatal (fun _ => Except.error "Permission denied")
      ["a: 1 pages"] "RESULTS" [("S1", 3725)] "Permission denied").2.2 rfl⟩

/-! ## Python name resolution: the unbound `logging` name (C3)

A module-level name in a CPython function body resolves through the
module's global namespace and then the builtins; an unbound name raises
`NameError` at the point of use.  The global namespaces below list, file
by file, every name bound at module level in the source (imports,
`try`/`except` import fallbacks, module constants and `def`s). -/

/-- The CPython builtins the scripts reference (`logging` is a standard
library module, not a builtin, so it is deliberately and correctly absent
from this list). -/
def python_builtins : List String :=
  ["print", "len", "sum", "str", "isinstance", "open", "sorted", "max",
   "set", "dict", "list", "tuple", "getattr", "Exception", "ImportError",
   "OSError", "PermissionError", "KeyboardInterrupt", "enumerate", "int",
   "__name__", "__file__"]

/-- Every module-level name bound in `comanga.py`: its imports
(`sys`, `zipfile`, `Path`, `Dict`, the format libraries, the selected
`shared_utils` names) plus its own module constants and `def`s. -/
def comanga_globals : List String :=
  ["sys", "zipfile", "Path", "Dict", "PdfReader", "epub", "RarFile",
   "setup_logging", "safe_file_operation", "save_results_to_file",
   "find_files_by_extensions", "ProgressReporter", "IMAGE_EXTENSIONS",
   "count_pages_cbz", "count_pages_cbr", "count_pages_epub",
   "count_pages_pdf", "get_page_counter", "count_pages_in_file",
   "count_pages_in_directory", "display_results", "main"]

/-- Every module-level name bound in `pageCounter.py`. -/
def pageCounter_globals : List String :=
  ["sys", "Path", "Dict", "List", "Tuple", "Optional", "PdfReader",
   "ebooklib", "epub", "Document", "setup_logging", "safe_file_operation",
   "save_results_to_file", "find_files_by_extensions", "ProgressReporter",
   "count_pdf_pages", "count_epub_pages", "count_docx_pages",
   "count_file_pages", "count_pages_in_directory",
   "display_and_save_results", "main"]

/-- Every module-level name bound in `seriesLength.py`. -/
def seriesLength_globals : List String :=
  ["sys", "Path", "Dict", "VideoFileClip", "setup_logging",
   "format_duration", "find_files_by_extensions", "save_results_to_file",
   "ProgressReporter", "get_video_duration", "get_series_durations",
   "save_durations_to_file", "main"]

/-- Global names referenced by the body of
`pageCounter.count_pages_in_directory` (it calls `logging.info` at its
no-files and found-files messages). -/
def pageCounter_cpid_refs : List String :=
  ["find_files_by_extensions", "logging", "ProgressReporter", "len",
   "safe_file_operation", "count_file_pages", "str"]

/-- Global names referenced by the body of
`seriesLength.get_video_duration` (it calls `logging.warning` in its
exception handler). -/
def seriesLength_gvd_refs : List String :=
  ["VideoFileClip", "str", "logging"]

/-- Global names referenced by the body of `comanga.display_results`. -/
def comanga_display_results_refs : List String :=
  ["logging", "sorted", "len", "Path", "save_results_to_file"]

/-- Resolution of a global name in a CPython function body: module
globals, then builtins, else `NameError`. -/
def lookupName (globals_ builtins_ : List String) (n : String) :
    Except PyExc Unit :=
  if n ∈ globals_ ∨ n ∈ builtins_ then .ok () else .error (.nameError n)

/-- The entry of `comanga.count_pages_in_directory` up to its first file
access, statement for statement: after binding `results` and
`supported_extensions`, the not-exists branch executes
`logging.error(...)` and the exists branch executes
`logging.info(f"Analyzing directory: ...")` — each begins by resolving
the global name `logging`. -/
def comanga_cpid_entry (dirExists : Bool) : Except PyExc Unit :=
  if dirExists = false then
    (lookupName comanga_globals python_builtins "logging").map (fun _ => ())
  else
    (lookupName comanga_globals python_builtins "logging").map (fun _ => ())

/-- C3: `comanga.py` never binds the module-level name `logging` (nor is
`logging` a builtin), yet `count_pages_in_directory` and
`display_results` reference it unconditionally, so calling
`count_pages_in_directory` on an existing directory raises
`NameError: logging` before scanning any file (and likewise on a missing
directory); the same unbound `logging` name is referenced by
`pageCounter.count_pages_in_directory` and
`seriesLength.get_video_duration`, whose modules also never bind it. -/
theorem unbound_logging_name_error :
    "logging" ∉ comanga_globals
    ∧ "logging" ∉ python_builtins
    ∧ "logging" ∈ comanga_display_results_refs
    ∧ (∀ dirExists, comanga_cpid_entry dirExists = .error (.nameError "logging"))
    ∧ "logging" ∉ pageCounter_globals
    ∧ "logging" ∈ pageCounter_cpid_refs
    ∧ "logging" ∉ seriesLength_globals
    ∧ "logging" ∈ seriesLength_gvd_refs := by
  refine ⟨by decide, by decide, by decide, ?_, by decide, by decide, by decide, by decide⟩
  intro dirExists
  cases dirExists <;> rfl

/-- Witness: instantiating the universally quantified part of
`unbound_logging_name_error` at an existing directory. -/
theorem unbound_logging_name_error_witness :
    comanga_cpid_entry true = .error (.nameError "logging") :=
  unbound_logging_name_error.2.2.2.1 true

/-- Whether a module resolves the name `logging` (its globals, then the
builtins) — the `loggingBound` status its functions execute under. -/
def moduleBindsLogging (globals_ : List String) : Bool :=
  decide ("logging" ∈ globals_ ∨ "logging" ∈ python_builtins)

theorem pageCounter_logging_unbound :
    moduleBindsLogging pageCounter_globals = false := by decide

theorem comanga_logging_unbound :
    moduleBindsLogging comanga_globals = false := by decide

/-- C1: The claim's accounting invariant is the evident design intent,
but the program as written violates it because `logging` is unbound
(a missing `import logging`): at the modules' actual binding status
(computed from their global namespaces, conjuncts 1-2),
`pageCounter.count_pages_in_directory` raises `NameError: logging`
before recording any per-file outcome for every input (line 130, or 122
when no files), and `comanga.count_pages_in_directory` raises at entry
(line 116, or 113) — no outcome is ever recorded.  Under the intended
binding the loops do satisfy the claim: the pageCounter loop partitions
the candidates into `files_with_pages` and `error_files` (each candidate
contributes exactly one outcome, none twice), and the comanga
subdirectory loop's processed-file count plus recorded failures equals
the number of candidates. -/
theorem every_candidate_yields_one_result (files : List PyFile) (dirExists : Bool) :
    moduleBindsLogging pageCounter_globals = false
    ∧ moduleBindsLogging comanga_globals = false
    ∧ count_pages_in_directory (moduleBindsLogging pageCounter_globals) files
        = .error (.nameError "logging")
    ∧ comanga_cpid_entry dirExists = .error (.nameError "logging")
    ∧ count_pages_in_directory true files
        = .ok (files.filterMap successOutcome, files.filterMap failureOutcome)
    ∧ (files.filterMap successOutcome).length
        + (files.filterMap failureOutcome).length = files.length
    ∧ comanga_subdir_loop true files = .ok (comanga_subdir_totals files)
    ∧ (comanga_subdir_totals files).2.1 + (comanga_subdir_totals files).2.2
        = files.length := by
  refine ⟨pageCounter_logging_unbound, comanga_logging_unbound, ?_, ?_,
    count_pages_in_directory_true_eq files, counts_partition files,
    comanga_subdir_loop_true files, comanga_totals_partition files⟩
  · rw [pageCounter_logging_unbound]
    exact count_pages_in_directory_unbound files
  · cases dirExists <;> rfl

/-! ## pageCounter.py report (`display_and_save_results`, C2) -/

/-- The totals of `pageCounter.display_and_save_results` under the
intended `logging` binding: the sorted listing, the reported
`Total files` (the length of `sorted_files`, i.e. of the successes it
was handed) and the reported `Total pages` (the sum accumulated over the
sorted listing). -/
def report_totals (files_with_pages : List (String × Nat)) :
    List (String × Nat) × Nat × Nat :=
  let sorted_files := pySorted files_with_pages
  (sorted_files, sorted_files.length, (sorted_files.map Prod.snd).sum)

/-- The `results_text` lines `display_and_save_results` hands to
`save_results_to_file` (source lines 189-197). -/
def pageCounter_results_text (files_with_pages : List (String × Nat)) :
    List String :=
  (pySorted files_with_pages).map
      (fun p => p.1 ++ ": " ++ toString p.2 ++ " pages")
    ++ ["", "Total files: " ++ toString (pySorted files_with_pages).length,
        "Total pages: " ++ toString ((pySorted files_with_pages).map Prod.snd).sum]

/-- `pageCounter.display_and_save_results` under `logging`-binding
status `lb`: the empty case logs `No files were successfully processed`
(line 171) and returns; otherwise the sort (line 175, pure) precedes the
first `logging.info` (line 178), after which the totals are logged and
the report saved.  Returns `none` for the early return, otherwise the
report `(sorted listing, Total files, Total pages, saved flag)`. -/
def display_and_save_results (lb : Bool)
    (write : List String → Except String Unit)
    (files_with_pages : List (String × Nat)) :
    Except PyExc (Option (List (String × Nat) × Nat × Nat × Bool)) :=
  if files_with_pages.length = 0 then
    match loggingCall lb with
    | .ok _ => .ok none
    | .error e => .error e
  else
    match loggingCall lb with
    | .error e => .error e
    | .ok _ =>
      let sorted_files := pySorted files_with_pages
      .ok (some (sorted_files, sorted_files.length,
        (sorted_files.map Prod.snd).sum,
        save_results_to_file write (pageCounter_results_text files_with_pages)
          "FILES SORTED BY PAGE COUNT"))

theorem display_and_save_results_unbound
    (write : List String → Except String Unit)
    (files_with_pages : List (String × Nat)) :
    display_and_save_results false write files_with_pages
      = .error (.nameError "logging") := by
  unfold display_and_save_results
  by_cases h : files_with_pages.length = 0 <;> simp [h, loggingCall]

theorem display_and_save_results_true
    (write : List String → Except String Unit)
    (files_with_pages : List (String × Nat))
    (h : files_with_pages.length ≠ 0) :
    display_and_save_results true write files_with_pages
      = .ok (some ((report_totals files_with_pages).1,
          (report_totals files_with_pages).2.1,
          (report_totals files_with_pages).2.2,
          save_results_to_file write (pageCounter_results_text files_with_pages)
            "FILES SORTED BY PAGE COUNT")) := by
  unfold display_and_save_results report_totals
  rw [if_neg h]
  rfl

/-- A well-formed PDF candidate whose counter reports 5 pages. -/
def pdfOk : PyFile :=
  ⟨"a.pdf", ".pdf", 100, true, true, true, .ok 5⟩

/-- A readable PDF candidate whose counter raises (corrupt file). -/
def pdfCorrupt : PyFile :=
  ⟨"b.pdf", ".pdf", 100, true, true, true, .error "Error processing PDF: corrupt"⟩

/-- C2 counterexample: on a scan that discovers the two candidates
`pdfOk`, `pdfCorrupt` (one of which fails to count), the program as
written produces no final report at all — both
`count_pages_in_directory` and `display_and_save_results` raise
`NameError: logging` at the modules' actual binding status — and even
under the intended binding the report's `Total files` is 1, not the 2
candidates discovered: the grand item count excludes failed files,
refuting the claim either way. -/
theorem report_item_count_counterexample :
    count_pages_in_directory (moduleBindsLogging pageCounter_globals)
        [pdfOk, pdfCorrupt] = .error (.nameError "logging")
    ∧ display_and_save_results (moduleBindsLogging pageCounter_globals)
        (fun _ => Except.ok ()) [("a.pdf", 5)] = .error (.nameError "logging")
    ∧ count_pages_in_directory true [pdfOk, pdfCorrupt]
        = .ok ([("a.pdf", 5)], [("b.pdf", "Error processing PDF: corrupt")])
    ∧ (report_totals [("a.pdf", 5)]).2.1 = 1
    ∧ ¬ (report_totals [("a.pdf", 5)]).2.1
        = ([pdfOk, pdfCorrupt] : List PyFile).length := by
  refine ⟨?_, ?_, ?_, ?_, ?_⟩
  · rw [pageCounter_logging_unbound]
    exact count_pages_in_directory_unbound _
  · rw [pageCounter_logging_unbound]
    exact display_and_save_results_unbound _ _
  · rfl
  · rfl
  · decide

/-- C2 amended: the program produces no final report — the scan and the
reporting function raise `NameError: logging` at the modules' actual
binding status for every input; under the intended `logging` binding,
`display_and_save_results` reports a grand total (`Total pages`) equal
to the sum of the per-group totals shown, which is the sum over the
successfully counted files it was handed, while the grand item count
(`Total files`) equals only the number of successfully counted files,
not the number of candidates discovered — discovered candidates split
exactly into reported successes and unreported failures. -/
theorem report_totals_amended (files : List PyFile)
    (fwp : List (String × Nat)) (write : List String → Except String Unit) :
    count_pages_in_directory (moduleBindsLogging pageCounter_globals) files
      = .error (.nameError "logging")
    ∧ display_and_save_results (moduleBindsLogging pageCounter_globals) write fwp
      = .error (.nameError "logging")
    ∧ (fwp.length ≠ 0 →
        display_and_save_results true write fwp
          = .ok (some ((report_totals fwp).1, (report_totals fwp).2.1,
              (report_totals fwp).2.2,
              save_results_to_file write (pageCounter_results_text fwp)
                "FILES SORTED BY PAGE COUNT")))
    ∧ (report_totals fwp).2.2 = ((report_totals fwp).1.map Prod.snd).sum
    ∧ (report_totals fwp).2.2 = (fwp.map Prod.snd).sum
    ∧ (report_totals fwp).2.1 = fwp.length
    ∧ count_pages_in_directory true files
        = .ok (files.filterMap successOutcome, files.filterMap failureOutcome)
    ∧ (files.filterMap successOutcome).length
        + (files.filterMap failureOutcome).length = files.length := by
  have hperm : (pySorted fwp).Perm fwp := List.perm_insertionSort byCount fwp
  refine ⟨?_, ?_, display_and_save_results_true write fwp, rfl, ?_, ?_,
    count_pages_in_directory_true_eq files, counts_partition files⟩
  · rw [pageCounter_logging_unbound]
    exact count_pages_in_directory_unbound files
  · rw [pageCounter_logging_unbound]
    exact display_and_save_results_unbound write fwp
  · exact (hperm.map Prod.snd).sum_eq
  · exact hperm.length_eq

/-- Witness for `report_totals_amended` at the concrete scan
`[pdfOk, pdfCorrupt]` with successes `[("a.pdf", 5)]` and a succeeding
write. -/
theorem report_totals_amended_witness :
    display_and_save_results true (fun _ => Except.ok ()) [("a.pdf", 5)]
      = .ok (some ((report_totals [("a.pdf", 5)]).1,
          (report_totals [("a.pdf", 5)]).2.1,
          (report_totals [("a.pdf", 5)]).2.2,
          save_results_to_file (fun _ => Except.ok ())
            (pageCounter_results_text [("a.pdf", 5)])
            "FILES SORTED BY PAGE COUNT"))
    ∧ (report_totals [("a.pdf", 5)]).2.1 = 1 :=
  ⟨(report_totals_amended [pdfOk, pdfCorrupt] [("a.pdf", 5)]
      (fun _ => Except.ok ())).2.2.1 (by decide), rfl⟩

/-! ## Unknown extension at dispatch (C4) -/

/-- A readable text file with no registered counter in either script. -/
def strayTxt : PyFile :=
  ⟨"notes.txt", ".txt", 50, true, true, true, .error "counter never invoked"⟩

/-- C4 counterexample: in `comanga.count_pages_in_file`, a candidate
reaching the dispatch with the unregistered extension `.txt` yields
`return 0` — a silent success with count 0, not a classified
`UnsupportedFormat` failure, refuting the claim for the comanga
dispatch.  This is real program behaviour: neither
`count_pages_in_file` nor the accessible-file branch of the loop
references the unbound `logging`, so even at comanga's actual binding
status the iteration yields `success 0` without raising. -/
theorem unsupported_dispatch_counterexample :
    count_pages_in_file strayTxt = .ok 0
    ∧ pyLower strayTxt.suffix ∉ comanga_counters
    ∧ comanga_process_file (moduleBindsLogging comanga_globals) strayTxt
        = .ok (.success 0) := by
  refine ⟨by decide, by decide, ?_⟩
  rw [comanga_logging_unbound]
  rfl

/-- C4 amended: in `comanga`, the dispatch silently returns success with
count 0 for an unregistered extension; in `pageCounter`, the dispatch
`count_file_pages` does raise the classified
`Unsupported file format` exception, but in the program as written the
loop's `except` handler then raises `NameError: logging` (line 147)
before `error_files.append` (line 148), so the failure is never
recorded and the scan aborts; only under the intended `logging` binding
is the candidate recorded as the classified
`Unsupported file format` failure. -/
theorem unsupported_dispatch_amended (f : PyFile) :
    (pyLower f.suffix ∉ comanga_counters → count_pages_in_file f = .ok 0)
    ∧ (safe_file_operation f = true → pyLower f.suffix ∉ page_counters →
        count_file_pages f
          = .error ("Unsupported file format: " ++ pyLower f.suffix))
    ∧ (safe_file_operation f = true → pyLower f.suffix ∉ page_counters →
        processFile (moduleBindsLogging pageCounter_globals) f
          = .error (.nameError "logging"))
    ∧ (safe_file_operation f = true → pyLower f.suffix ∉ page_counters →
        processFile true f
          = .ok (none, some (f.name, "Unsupported file format: " ++ pyLower f.suffix))) := by
  refine ⟨?_, ?_, ?_, ?_⟩
  · intro hmem
    unfold count_pages_in_file
    simp [hmem]
  · intro _ hmem
    unfold count_file_pages
    simp [hmem]
  · intro hsafe hmem
    have hcf : count_file_pages f
        = .error ("Unsupported file format: " ++ pyLower f.suffix) := by
      unfold count_file_pages
      simp [hmem]
    rw [pageCounter_logging_unbound]
    unfold processFile
    simp [hsafe, hcf, loggingCall]
  · intro hsafe hmem
    have hcf : count_file_pages f
        = .error ("Unsupported file format: " ++ pyLower f.suffix) := by
      unfold count_file_pages
      simp [hmem]
    unfold processFile
    simp [hsafe, hcf, loggingCall]

/-- Witness for `unsupported_dispatch_amended` at the concrete file
`strayTxt`. -/
theorem unsupported_dispatch_amended_witness :
    count_pages_in_file strayTxt = .ok 0
    ∧ count_file_pages strayTxt
        = .error ("Unsupported file format: " ++ pyLower strayTxt.suffix)
    ∧ processFile (moduleBindsLogging pageCounter_globals) strayTxt
        = .error (.nameError "logging")
    ∧ processFile true strayTxt
        = .ok (none, some (strayTxt.name,
            "Unsupported file format: " ++ pyLower strayTxt.suffix)) :=
  ⟨(unsupported_dispatch_amended strayTxt).1 (by decide),
   (unsupported_dispatch_amended strayTxt).2.1 rfl (by decide),
   (unsupported_dispatch_amended strayTxt).2.2.1 rfl (by decide),
   (unsupported_dispatch_amended strayTxt).2.2.2 rfl (by decide)⟩

/-! ## Zero-byte files (C6) -/

theorem safe_file_check_empty (f : PyFile)
    (hex : f.exists_ = true) (hif : f.isFile = true) (hsz : f.size = 0) :
    safe_file_check f = some .empty ∧ safe_file_operation f = false := by
  unfold safe_file_check safe_file_operation
  simp [hex, hif, hsz]

/-- C6: The claimed handling of a zero-byte file is the evident intent
and its pre-check half is real — `shared_utils.safe_file_operation`
(whose module binds `logging`) classifies a zero-size existing file at
its empty-file branch and returns `False` — but the program as written
never records the failure: `pageCounter.count_pages_in_directory`
raises `NameError: logging` before its loop for every input, and
comanga's skip path for an inaccessible file raises `NameError` at
`logging.warning`/`logging.error` (lines 139/141), aborting the whole
subdirectory loop.  Under the intended binding the claim's accounting
holds: the file adds one `File access error` record and no success in
pageCounter (contributing 0 to the total), and in comanga it is skipped,
leaving `total_pages` and `file_count` unchanged and adding exactly 1 to
the failure tally. -/
theorem zero_byte_file_empty_failure (f : PyFile) (files1 files2 rest : List PyFile)
    (hex : f.exists_ = true) (hif : f.isFile = true) (hsz : f.size = 0) :
    safe_file_check f = some .empty
    ∧ safe_file_operation f = false
    ∧ count_pages_in_directory (moduleBindsLogging pageCounter_globals)
        (files1 ++ f :: files2) = .error (.nameError "logging")
    ∧ comanga_process_file (moduleBindsLogging comanga_globals) f
        = .error (.nameError "logging")
    ∧ count_pages_in_directory true (files1 ++ f :: files2)
        = .ok ((files1 ++ files2).filterMap successOutcome,
            files1.filterMap failureOutcome
              ++ (f.name, "File access error") :: files2.filterMap failureOutcome)
    ∧ ((files1 ++ f :: files2).filterMap failureOutcome).length
        = ((files1 ++ files2).filterMap failureOutcome).length + 1
    ∧ (((files1 ++ f :: files2).filterMap successOutcome).map Prod.snd).sum
        = (((files1 ++ files2).filterMap successOutcome).map Prod.snd).sum
    ∧ comanga_outcome f = .skipped
    ∧ (comanga_subdir_totals (f :: rest)).1 = (comanga_subdir_totals rest).1
    ∧ (comanga_subdir_totals (f :: rest)).2.1 = (comanga_subdir_totals rest).2.1
    ∧ (comanga_subdir_totals (f :: rest)).2.2
        = (comanga_subdir_totals rest).2.2 + 1 := by
  obtain ⟨hchk, hsafe⟩ := safe_file_check_empty f hex hif hsz
  have hs : successOutcome f = none := by
    simp [successOutcome, processFile, hsafe]
  have hfl : failureOutcome f = some (f.name, "File access error") := by
    simp [failureOutcome, processFile, hsafe]
  have hcom : comanga_outcome f = .skipped := by
    unfold comanga_outcome
    simp [hsafe]
  refine ⟨hchk, hsafe, ?_, ?_, ?_, ?_, ?_, hcom, ?_, ?_, ?_⟩
  · rw [pageCounter_logging_unbound]
    exact count_pages_in_directory_unbound _
  · rw [comanga_logging_unbound]
    unfold comanga_process_file
    simp [hsafe, loggingCall]
  · rw [count_pages_in_directory_true_eq]
    simp [List.filterMap_append, hs, hfl]
  · simp [List.filterMap_append, hfl]
    omega
  · simp [List.filterMap_append, hs]
  · simp only [comanga_subdir_totals, hcom]
  · simp only [comanga_subdir_totals, hcom]
  · simp only [comanga_subdir_totals, hcom]

/-- A zero-byte PDF candidate. -/
def pdfEmpty : PyFile :=
  ⟨"zero.pdf", ".pdf", 0, true, true, true, .ok 99⟩

/-- Witness for `zero_byte_file_empty_failure` at the concrete zero-byte
file `pdfEmpty` in a singleton scan. -/
theorem zero_byte_file_empty_failure_witness :
    safe_file_check pdfEmpty = some .empty
    ∧ safe_file_operation pdfEmpty = false
    ∧ count_pages_in_directory (moduleBindsLogging pageCounter_globals)
        ([] ++ pdfEmpty :: []) = .error (.nameError "logging")
    ∧ comanga_process_file (moduleBindsLogging comanga_globals) pdfEmpty
        = .error (.nameError "logging")
    ∧ count_pages_in_directory true ([] ++ pdfEmpty :: [])
        = .ok (([] ++ [] : List PyFile).filterMap successOutcome,
            ([] : List PyFile).filterMap failureOutcome
              ++ (pdfEmpty.name, "File access error")
                :: ([] : List PyFile).filterMap failureOutcome)
    ∧ (([] ++ pdfEmpty :: []).filterMap failureOutcome).length
        = (([] ++ [] : List PyFile).filterMap failureOutcome).length + 1
    ∧ ((([] ++ pdfEmpty :: []).filterMap successOutcome).map Prod.snd).sum
        = ((([] ++ [] : List PyFile).filterMap successOutcome).map Prod.snd).sum
    ∧ comanga_outcome pdfEmpty = .skipped
    ∧ (comanga_subdir_totals (pdfEmpty :: [])).1 = (comanga_subdir_totals []).1
    ∧ (comanga_subdir_totals (pdfEmpty :: [])).2.1 = (comanga_subdir_totals []).2.1
    ∧ (comanga_subdir_totals (pdfEmpty :: [])).2.2
        = (comanga_subdir_totals []).2.2 + 1 :=
  zero_byte_file_empty_failure pdfEmpty [] [] [] rfl rfl rfl

/-! ## Recursive discovery with directory-name exclusion (C5)

`shared_utils.find_files_by_extensions` (recursive mode) and
`length.find_video_files` walk the tree top-down and prune, at every
visited directory, the subdirectories whose *name* is in the exclusion
set (`dirs[:] = [d for d in dirs if d not in exclude_dirs]`), so pruned
subtrees are never descended into. -/

mutual
inductive DirTree where
  | node : String → List String → Forest → DirTree
inductive Forest where
  | nil : Forest
  | cons : DirTree → Forest → Forest
end

def DirTree.dname : DirTree → String
  | .node n _ _ => n

/-- Index of the last `'.'` in a character list (CPython's
`str.rfind('.')` as used by `pathlib.PurePath.suffix`). -/
def lastDotIdx : List Char → Nat → Option Nat
  | [], _ => none
  | c :: rest, i =>
    match lastDotIdx rest (i + 1) with
    | some j => some j
    | none => if c = '.' then some i else none

/-- `pathlib.PurePath.suffix` of a file name: the substring from the
last dot, empty when the dot is absent, leading, or trailing. -/
def pySuffix (name : String) : String :=
  match lastDotIdx name.data 0 with
  | some i =>
    if 0 < i ∧ i + 1 < name.data.length then String.mk (name.data.drop i) else ""
  | none => ""

mutual
/-- The walk of `find_files_by_extensions` from one visited directory:
collect this directory's files whose lower-cased suffix is included,
then descend into the non-excluded subdirectories. -/
def findFilesTree (exts exclude : List String) : DirTree → List String → List (List String)
  | .node _ files subs, pre =>
    (files.filter (fun fn => pyLower (pySuffix fn) ∈ exts)).map (fun fn => pre ++ [fn])
      ++ findFilesForest exts exclude subs pre
def findFilesForest (exts exclude : List String) : Forest → List String → List (List String)
  | .nil, _ => []
  | .cons t ts, pre =>
    (if t.dname ∈ exclude then [] else findFilesTree exts exclude t (pre ++ [t.dname]))
      ++ findFilesForest exts exclude ts pre
end

/-- `shared_utils.find_files_by_extensions` with `recursive=True`,
returning each discovered file as its path components below the scan
root. -/
def find_files_by_extensions (exts exclude : List String) (t : DirTree) :
    List (List String) :=
  findFilesTree exts exclude t []

mutual
/-- Erasure of every excluded-named subdirectory (at every depth). -/
def pruneTree (exclude : List String) : DirTree → DirTree
  | .node n files subs => .node n files (pruneForest exclude subs)
def pruneForest (exclude : List String) : Forest → Forest
  | .nil => .nil
  | .cons t ts =>
    if t.dname ∈ exclude then pruneForest exclude ts
    else .cons (pruneTree exclude t) (pruneForest exclude ts)
end

theorem pruneTree_dname (exclude : List String) (t : DirTree) :
    (pruneTree exclude t).dname = t.dname := by
  cases t with
  | node n files subs => rfl

mutual
theorem findFilesTree_components (exts exclude : List String) :
    ∀ (t : DirTree) (pre p : List String),
      p ∈ findFilesTree exts exclude t pre →
      ∃ mid fn, p = pre ++ mid ++ [fn] ∧ ∀ d ∈ mid, d ∉ exclude
  | .node _ files subs, pre, p => by
    intro hp
    simp only [findFilesTree, List.mem_append, List.mem_map] at hp
    rcases hp with ⟨fn, _, rfl⟩ | hp
    · exact ⟨[], fn, by simp, by simp⟩
    · exact findFilesForest_components exts exclude subs pre p hp
theorem findFilesForest_components (exts exclude : List String) :
    ∀ (ts : Forest) (pre p : List String),
      p ∈ findFilesForest exts exclude ts pre →
      ∃ mid fn, p = pre ++ mid ++ [fn] ∧ ∀ d ∈ mid, d ∉ exclude
  | .nil, pre, p => by
    intro hp
    simp [findFilesForest] at hp
  | .cons t ts, pre, p => by
    intro hp
    simp only [findFilesForest, List.mem_append] at hp
    rcases hp with hp | hp
    · by_cases hex : t.dname ∈ exclude
      · simp [hex] at hp
      · rw [if_neg hex] at hp
        obtain ⟨mid, fn, hpe, hmid⟩ :=
          findFilesTree_components exts exclude t (pre ++ [t.dname]) p hp
        refine ⟨t.dname :: mid, fn, by simpa using hpe, ?_⟩
        intro d hd
        rcases List.mem_cons.mp hd with rfl | hd
        · exact hex
        · exact hmid d hd
    · exact findFilesForest_components exts exclude ts pre p hp
end

mutual
theorem findFilesTree_prune (exts exclude : List String) :
    ∀ (t : DirTree) (pre : List String),
      findFilesTree exts exclude (pruneTree exclude t) pre
        = findFilesTree exts exclude t pre
  | .node n files subs, pre => by
    simp only [pruneTree, findFilesTree]
    rw [findFilesForest_prune exts exclude subs pre]
theorem findFilesForest_prune (exts exclude : List String) :
    ∀ (ts : Forest) (pre : List String),
      findFilesForest exts exclude (pruneForest exclude ts) pre
        = findFilesForest exts exclude ts pre
  | .nil, pre => rfl
  | .cons t ts, pre => by
    by_cases hex : t.dname ∈ exclude
    · simp only [pruneForest, if_pos hex, findFilesForest, if_pos hex,
        List.nil_append]
      exact findFilesForest_prune exts exclude ts pre
    · simp only [pruneForest, if_neg hex, findFilesForest,
        pruneTree_dname, if_neg hex]
      rw [findFilesTree_prune exts exclude t (pre ++ [t.dname]),
        findFilesForest_prune exts exclude ts pre]
end

/-- C5: For every directory tree, exclusion set and depth: every file
discovered by the recursive walk lies on a path none of whose directory
components (below the scan root) is an excluded name — so no file under
an excluded-named subdirectory, however deep, is discovered — and the
walk's output is unchanged when every excluded-named subtree is erased
outright, i.e. excluded subtrees are never traversed and contribute
nothing. -/
theorem exclusion_applies_at_every_depth (exts exclude : List String) (t : DirTree) :
    (∀ p ∈ find_files_by_extensions exts exclude t,
      ∃ mid fn, p = mid ++ [fn] ∧ ∀ d ∈ mid, d ∉ exclude)
    ∧ find_files_by_extensions exts exclude (pruneTree exclude t)
        = find_files_by_extensions exts exclude t := by
  constructor
  · intro p hp
    obtain ⟨mid, fn, hpe, hmid⟩ :=
      findFilesTree_components exts exclude t [] p hp
    exact ⟨mid, fn, by simpa using hpe, hmid⟩
  · exact findFilesTree_prune exts exclude t []

/-- A concrete tree: the root holds `a.mp4` and a subdirectory `Subs`
holding `b.mp4`; excluding `Subs` discovers only `a.mp4`. -/
def sampleTree : DirTree :=
  .node "root" ["a.mp4"]
    (.cons (.node "Subs" ["b.mp4"] .nil) .nil)

/-- Witness for `exclusion_applies_at_every_depth` on `sampleTree` with
exclusion set `["Subs"]`. -/
theorem exclusion_applies_at_every_depth_witness :
    (∃ mid fn, (["a.mp4"] : List String) = mid ++ [fn] ∧ ∀ d ∈ mid, d ∉ (["Subs"] : List String))
    ∧ find_files_by_extensions [".mp4"] ["Subs"] (pruneTree ["Subs"] sampleTree)
        = find_files_by_extensions [".mp4"] ["Subs"] sampleTree
    ∧ find_files_by_extensions [".mp4"] ["Subs"] sampleTree = [["a.mp4"]] :=
  ⟨(exclusion_applies_at_every_depth [".mp4"] ["Subs"] sampleTree).1 ["a.mp4"] (by decide),
   (exclusion_applies_at_every_depth [".mp4"] ["Subs"] sampleTree).2,
   by decide⟩

/-! ## File-size formatting (C8)

`shared_utils.format_file_size` (identical in `length.py`), modelled
over `ℚ`: each `size_bytes /= 1024.0` step is exact in IEEE doubles for
the integer inputs involved (division by a power of two only shifts the
exponent), and `f"{x:.1f}"` rounds the exact dyadic value to the nearest
tenth with ties to even, modelled by the explicit `roundHalfEven` below.
Ties are reachable — `1280/1024 = 1.25` is an exact odd multiple of a
quarter — and the model agrees with CPython there
(`format_file_size_1280` renders `"1.2 KB"`, as Python prints). -/

/-- Round-half-to-even to the nearest integer, as CPython's `.1f`
formatting rounds the (exact, dyadic) scaled value. -/
def roundHalfEven (x : ℚ) : ℤ :=
  if x - ⌊x⌋ < 1 / 2 then ⌊x⌋
  else if 1 / 2 < x - ⌊x⌋ then ⌊x⌋ + 1
  else if ⌊x⌋ % 2 = 0 then ⌊x⌋ else ⌊x⌋ + 1

/-- Python's `f"{x:.1f}"` on a non-negative value: the value in tenths
rounded half-to-even, rendered with one decimal digit. -/
def fmtTenth (x : ℚ) : String :=
  toString (roundHalfEven (10 * x) / 10) ++ "."
    ++ toString (roundHalfEven (10 * x) % 10)

/-- The loop of `format_file_size`: try each unit in turn, dividing by
1024, falling through to `TB`. -/
def format_file_size_aux : ℚ → List String → String
  | size, [] => fmtTenth size ++ " TB"
  | size, u :: us =>
    if size < 1024 then fmtTenth size ++ " " ++ u
    else format_file_size_aux (size / 1024) us

/-- `shared_utils.format_file_size` with the source's unit sequence
`['B', 'KB', 'MB', 'GB']` then `TB`. -/
def format_file_size (size_bytes : Nat) : String :=
  format_file_size_aux (size_bytes : ℚ) ["B", "KB", "MB", "GB"]

/-- The full unit scale, in order. -/
def sizeUnits : List String := ["B", "KB", "MB", "GB", "TB"]

/-- The unit index the loop selects for byte count `n`
(`1048576 = 1024^2`, `1073741824 = 1024^3`, `1099511627776 = 1024^4`). -/
def sizeUnitIndex (n : Nat) : Nat :=
  if n < 1024 then 0
  else if n < 1048576 then 1
  else if n < 1073741824 then 2
  else if n < 1099511627776 then 3
  else 4

/-- The rendered value in tenths of the selected unit. -/
def displayedTenths (n : Nat) : ℤ :=
  roundHalfEven (10 * (n : ℚ) / 1024 ^ sizeUnitIndex n)

/-- The magnitude the rendered string represents: the displayed value
times its unit's byte multiplier. -/
def representedMagnitude (n : Nat) : ℚ :=
  (displayedTenths n : ℚ) / 10 * 1024 ^ sizeUnitIndex n

theorem floor_le_roundHalfEven (x : ℚ) : ⌊x⌋ ≤ roundHalfEven x := by
  unfold roundHalfEven
  split_ifs <;> omega

theorem roundHalfEven_le_floor_add_one (x : ℚ) : roundHalfEven x ≤ ⌊x⌋ + 1 := by
  unfold roundHalfEven
  split_ifs <;> omega

theorem roundHalfEven_intCast (n : ℤ) : roundHalfEven ((n : ℚ)) = n := by
  unfold roundHalfEven
  rw [Int.floor_intCast]
  norm_num

theorem roundHalfEven_mono {x y : ℚ} (h : x ≤ y) :
    roundHalfEven x ≤ roundHalfEven y := by
  have hf : ⌊x⌋ ≤ ⌊y⌋ := Int.floor_mono h
  rcases eq_or_lt_of_le hf with heq | hlt
  · have hr : x - ⌊x⌋ ≤ y - ⌊x⌋ := by linarith
    unfold roundHalfEven
    rw [← heq]
    split_ifs <;> first | omega | linarith
  · have h1 := roundHalfEven_le_floor_add_one x
    have h2 := floor_le_roundHalfEven y
    omega

theorem sizeUnitIndex_le_four (n : Nat) : sizeUnitIndex n ≤ 4 := by
  unfold sizeUnitIndex
  split_ifs <;> omega

theorem sizeUnitIndex_mono {n m : Nat} (h : n ≤ m) :
    sizeUnitIndex n ≤ sizeUnitIndex m := by
  unfold sizeUnitIndex
  split_ifs <;> omega

theorem sizeUnitIndex_upper_nat (n : Nat) (h : sizeUnitIndex n ≤ 3) :
    n < 1024 ^ (sizeUnitIndex n + 1) := by
  unfold sizeUnitIndex at h ⊢
  split_ifs at h ⊢ <;> norm_num <;> omega

theorem sizeUnitIndex_lower_nat (n : Nat) (h : 1 ≤ sizeUnitIndex n) :
    1024 ^ sizeUnitIndex n ≤ n := by
  unfold sizeUnitIndex at h ⊢
  split_ifs at h ⊢ <;> norm_num <;> omega

theorem magnitude_upper {n : Nat} (h : sizeUnitIndex n ≤ 3) :
    representedMagnitude n ≤ (1024 : ℚ) ^ (sizeUnitIndex n + 1) := by
  have hn : (n : ℚ) < (1024 : ℚ) ^ (sizeUnitIndex n + 1) := by
    exact_mod_cast sizeUnitIndex_upper_nat n h
  have hpow : (0 : ℚ) < (1024 : ℚ) ^ sizeUnitIndex n := by positivity
  have hx : 10 * (n : ℚ) / 1024 ^ sizeUnitIndex n ≤ 10240 := by
    rw [div_le_iff hpow]
    rw [pow_succ] at hn
    linarith
  have h10240 : roundHalfEven ((10240 : ℚ)) = 10240 := by
    have e : ((10240 : ℤ) : ℚ) = (10240 : ℚ) := by norm_num
    rw [← e, roundHalfEven_intCast]
  have ht : displayedTenths n ≤ 10240 := by
    unfold displayedTenths
    calc roundHalfEven (10 * (n : ℚ) / 1024 ^ sizeUnitIndex n)
        ≤ roundHalfEven ((10240 : ℚ)) := roundHalfEven_mono hx
      _ = 10240 := h10240
  have htq : ((displayedTenths n : ℤ) : ℚ) ≤ 10240 := by exact_mod_cast ht
  unfold representedMagnitude
  calc (displayedTenths n : ℚ) / 10 * 1024 ^ sizeUnitIndex n
      ≤ 10240 / 10 * 1024 ^ sizeUnitIndex n := by
        apply mul_le_mul_of_nonneg_right _ hpow.le
        linarith
    _ = (1024 : ℚ) ^ (sizeUnitIndex n + 1) := by
        rw [pow_succ]; ring

theorem magnitude_lower {n : Nat} (h : 1 ≤ sizeUnitIndex n) :
    (1024 : ℚ) ^ sizeUnitIndex n ≤ representedMagnitude n := by
  have hn : ((1024 : ℚ) ^ sizeUnitIndex n) ≤ (n : ℚ) := by
    exact_mod_cast sizeUnitIndex_lower_nat n h
  have hpow : (0 : ℚ) < (1024 : ℚ) ^ sizeUnitIndex n := by positivity
  have hx : (10 : ℚ) ≤ 10 * (n : ℚ) / 1024 ^ sizeUnitIndex n := by
    rw [le_div_iff hpow]
    linarith
  have h10 : roundHalfEven ((10 : ℚ)) = 10 := by
    have e : ((10 : ℤ) : ℚ) = (10 : ℚ) := by norm_num
    rw [← e, roundHalfEven_intCast]
  have ht : (10 : ℤ) ≤ displayedTenths n := by
    unfold displayedTenths
    calc (10 : ℤ) = roundHalfEven ((10 : ℚ)) := h10.symm
      _ ≤ roundHalfEven (10 * (n : ℚ) / 1024 ^ sizeUnitIndex n) :=
          roundHalfEven_mono hx
  have htq : (10 : ℚ) ≤ ((displayedTenths n : ℤ) : ℚ) := by exact_mod_cast ht
  unfold representedMagnitude
  calc (1024 : ℚ) ^ sizeUnitIndex n
      = 10 / 10 * 1024 ^ sizeUnitIndex n := by ring
    _ ≤ (displayedTenths n : ℚ) / 10 * 1024 ^ sizeUnitIndex n := by
        apply mul_le_mul_of_nonneg_right _ hpow.le
        linarith

theorem representedMagnitude_mono {n m : Nat} (h : n ≤ m) :
    representedMagnitude n ≤ representedMagnitude m := by
  have hk := sizeUnitIndex_mono h
  rcases eq_or_lt_of_le hk with heq | hlt
  · unfold representedMagnitude displayedTenths
    rw [← heq]
    have hpow : (0 : ℚ) < (1024 : ℚ) ^ sizeUnitIndex n := by positivity
    have hnm : (n : ℚ) ≤ (m : ℚ) := by exact_mod_cast h
    have hx : 10 * (n : ℚ) / 1024 ^ sizeUnitIndex n
        ≤ 10 * (m : ℚ) / 1024 ^ sizeUnitIndex n := by
      gcongr
    have ht := roundHalfEven_mono hx
    have htq : ((roundHalfEven (10 * (n : ℚ) / 1024 ^ sizeUnitIndex n) : ℤ) : ℚ)
        ≤ ((roundHalfEven (10 * (m : ℚ) / 1024 ^ sizeUnitIndex n) : ℤ) : ℚ) := by
      exact_mod_cast ht
    apply mul_le_mul_of_nonneg_right _ hpow.le
    linarith
  · have h1 : representedMagnitude n ≤ (1024 : ℚ) ^ (sizeUnitIndex n + 1) :=
      magnitude_upper (by have := sizeUnitIndex_le_four m; omega)
    have h2 : (1024 : ℚ) ^ sizeUnitIndex m ≤ representedMagnitude m :=
      magnitude_lower (by omega)
    have h3 : (1024 : ℚ) ^ (sizeUnitIndex n + 1) ≤ (1024 : ℚ) ^ sizeUnitIndex m :=
      pow_le_pow_right (by norm_num) (by omega)
    linarith

theorem format_file_size_eq_fmtTenth (n : Nat) :
    format_file_size n
      = fmtTenth ((n : ℚ) / 1024 ^ sizeUnitIndex n) ++ " "
        ++ sizeUnits.getD (sizeUnitIndex n) "TB" := by
  by_cases h0 : n < 1024
  · have hq0 : (n : ℚ) < 1024 := by exact_mod_cast h0
    have hidx : sizeUnitIndex n = 0 := by unfold sizeUnitIndex; simp [h0]
    simp only [format_file_size, format_file_size_aux, if_pos hq0]
    rw [hidx, pow_zero, div_one]
    rfl
  · have hq0 : ¬ (n : ℚ) < 1024 := by exact_mod_cast h0
    have hc0 : (1024 : ℚ) ≤ (n : ℚ) := by
      have := Nat.not_lt.mp h0
      exact_mod_cast this
    by_cases h1 : n < 1048576
    · have hq1 : (n : ℚ) / 1024 < 1024 := by
        rw [div_lt_iff (by norm_num : (0 : ℚ) < 1024)]
        have : (n : ℚ) < 1048576 := by exact_mod_cast h1
        linarith
      have hidx : sizeUnitIndex n = 1 := by unfold sizeUnitIndex; simp [h0, h1]
      simp only [format_file_size, format_file_size_aux, if_neg hq0, if_pos hq1]
      rw [hidx, pow_one]
      rfl
    · have hc1 : (1048576 : ℚ) ≤ (n : ℚ) := by
        have := Nat.not_lt.mp h1
        exact_mod_cast this
      have hq1 : ¬ (n : ℚ) / 1024 < 1024 := by
        rw [not_lt, le_div_iff (by norm_num : (0 : ℚ) < 1024)]
        linarith
      by_cases h2 : n < 1073741824
      · have hq2 : (n : ℚ) / 1024 / 1024 < 1024 := by
          rw [div_div, div_lt_iff (by norm_num : (0 : ℚ) < 1024 * 1024)]
          have : (n : ℚ) < 1073741824 := by exact_mod_cast h2
          linarith
        have hidx : sizeUnitIndex n = 2 := by
          unfold sizeUnitIndex; simp [h0, h1, h2]
        have e2 : (n : ℚ) / 1024 / 1024 = (n : ℚ) / 1024 ^ 2 := by
          rw [div_div]; norm_num
        simp only [format_file_size, format_file_size_aux, if_neg hq0,
          if_neg hq1, if_pos hq2]
        rw [hidx, e2]
        rfl
      · have hc2 : (1073741824 : ℚ) ≤ (n : ℚ) := by
          have := Nat.not_lt.mp h2
          exact_mod_cast this
        have hq2 : ¬ (n : ℚ) / 1024 / 1024 < 1024 := by
          rw [not_lt, div_div, le_div_iff (by norm_num : (0 : ℚ) < 1024 * 1024)]
          linarith
        by_cases h3 : n < 1099511627776
        · have hq3 : (n : ℚ) / 1024 / 1024 / 1024 < 1024 := by
            rw [div_div, div_div,
              div_lt_iff (by norm_num : (0 : ℚ) < 1024 * (1024 * 1024))]
            have : (n : ℚ) < 1099511627776 := by exact_mod_cast h3
            linarith
          have hidx : sizeUnitIndex n = 3 := by
            unfold sizeUnitIndex; simp [h0, h1, h2, h3]
          have e3 : (n : ℚ) / 1024 / 1024 / 1024 = (n : ℚ) / 1024 ^ 3 := by
            rw [div_div, div_div]; norm_num
          simp only [format_file_size, format_file_size_aux, if_neg hq0,
            if_neg hq1, if_neg hq2, if_pos hq3]
          rw [hidx, e3]
          rfl
        · have hc3 : (1099511627776 : ℚ) ≤ (n : ℚ) := by
            have := Nat.not_lt.mp h3
            exact_mod_cast this
          have hq3 : ¬ (n : ℚ) / 1024 / 1024 / 1024 < 1024 := by
            rw [not_lt, div_div, div_div,
              le_div_iff (by norm_num : (0 : ℚ) < 1024 * (1024 * 1024))]
            linarith
          have hidx : sizeUnitIndex n = 4 := by
            unfold sizeUnitIndex; simp [h0, h1, h2, h3]
          have e4 : (n : ℚ) / 1024 / 1024 / 1024 / 1024 = (n : ℚ) / 1024 ^ 4 := by
            rw [div_div, div_div, div_div]; norm_num
          simp only [format_file_size, format_file_size_aux, if_neg hq0,
            if_neg hq1, if_neg hq2, if_neg hq3]
          rw [hidx, e4, String.append_assoc]
          rfl

theorem format_file_size_1023 : format_file_size 1023 = "1023.0 B" := by
  have hq : ((1023 : ℕ) : ℚ) < 1024 := by norm_num
  have hr : roundHalfEven (10 * ((1023 : ℕ) : ℚ)) = 10230 := by
    have e : 10 * ((1023 : ℕ) : ℚ) = ((10230 : ℤ) : ℚ) := by push_cast; ring
    rw [e, roundHalfEven_intCast]
  simp only [format_file_size, format_file_size_aux, if_pos hq, fmtTenth, hr]
  rfl

theorem format_file_size_1024 : format_file_size 1024 = "1.0 KB" := by
  have hq0 : ¬ ((1024 : ℕ) : ℚ) < 1024 := by norm_num
  have hq1 : ((1024 : ℕ) : ℚ) / 1024 < 1024 := by norm_num
  have hr : roundHalfEven (10 * (((1024 : ℕ) : ℚ) / 1024)) = 10 := by
    have e : 10 * (((1024 : ℕ) : ℚ) / 1024) = ((10 : ℤ) : ℚ) := by
      push_cast; norm_num
    rw [e, roundHalfEven_intCast]
  simp only [format_file_size, format_file_size_aux, if_neg hq0, if_pos hq1,
    fmtTenth, hr]
  rfl

/-- The reachable rounding tie: `1280/1024 = 1.25` exactly, and CPython's
half-to-even `.1f` prints `1.2` — so does the model. -/
theorem format_file_size_1280 : format_file_size 1280 = "1.2 KB" := by
  have hq0 : ¬ ((1280 : ℕ) : ℚ) < 1024 := by norm_num
  have hq1 : ((1280 : ℕ) : ℚ) / 1024 < 1024 := by norm_num
  have hr : roundHalfEven (10 * (((1280 : ℕ) : ℚ) / 1024)) = 12 := by
    have e : 10 * (((1280 : ℕ) : ℚ) / 1024) = (25 / 2 : ℚ) := by
      push_cast; norm_num
    rw [e]
    have hf : ⌊(25 / 2 : ℚ)⌋ = 12 := by norm_num [Int.floor_eq_iff]
    have c1 : ¬ ((25 / 2 : ℚ) - ⌊(25 / 2 : ℚ)⌋ < 1 / 2) := by
      rw [hf]; norm_num
    have c2 : ¬ ((1 / 2 : ℚ) < (25 / 2 : ℚ) - ⌊(25 / 2 : ℚ)⌋) := by
      rw [hf]; norm_num
    unfold roundHalfEven
    rw [if_neg c1, if_neg c2, hf]
    norm_num
  simp only [format_file_size, format_file_size_aux, if_neg hq0, if_pos hq1,
    fmtTenth, hr]
  rfl

/-- C8: `format_file_size` walks the unit sequence `B, KB, MB, GB, TB`,
dividing by 1024 at each step and rendering the selected unit's value to
one decimal place (half-to-even, as CPython's `.1f` renders the exact
dyadic quotient); the represented magnitude (displayed value times unit
multiplier) is monotonically non-decreasing in the input, including
across unit boundaries; in particular 1023 renders in the `B` unit as
`"1023.0 B"` and 1024 renders as exactly `"1.0 KB"`. -/
theorem size_formatting_scale_monotone (n m : Nat) (h : n ≤ m) :
    format_file_size n
      = fmtTenth ((n : ℚ) / 1024 ^ sizeUnitIndex n) ++ " "
        ++ sizeUnits.getD (sizeUnitIndex n) "TB"
    ∧ representedMagnitude n ≤ representedMagnitude m
    ∧ format_file_size 1023 = "1023.0 B"
    ∧ format_file_size 1024 = "1.0 KB" :=
  ⟨format_file_size_eq_fmtTenth n, representedMagnitude_mono h,
   format_file_size_1023, format_file_size_1024⟩

/-- Witness for `size_formatting_scale_monotone` at the boundary pair
`(1023, 1024)`. -/
theorem size_formatting_scale_monotone_witness :
    format_file_size 1023
      = fmtTenth ((1023 : ℚ) / 1024 ^ sizeUnitIndex 1023) ++ " "
        ++ sizeUnits.getD (sizeUnitIndex 1023) "TB"
    ∧ representedMagnitude 1023 ≤ representedMagnitude 1024
    ∧ format_file_size 1023 = "1023.0 B"
    ∧ format_file_size 1024 = "1.0 KB" := by
  have h := size_formatting_scale_monotone 1023 1024 (by omega)
  simpa using h

end Organizers
